import Mathlib

namespace Homebrain

/-!
Verification of the HomeBrain Insteon bridge
(`remote-device/insteon/homebrain_insteon/bridge.py` and `devices.py`).

The Python code is shallowly embedded: each Python function that a claim
depends on becomes a Lean definition mirroring its control flow, with
strings as Lean `String`, integers as `Int`/`Nat`, dictionaries as
association lists, and exceptional exits as `Except`/`Option` values.
-/

/-! ## Device-id normalization

`InsteonBridge._normalize_device_id` (bridge.py):
`str(address).replace(".", "").replace(":", "").lower()`.
Removing every occurrence of "." and ":" is a character filter; `.lower()`
is modelled character-wise with `Char.toLower` (ASCII lowering, which is
what device addresses use). -/

def notSeparator (c : Char) : Bool := !(c == '.') && !(c == ':')

def normalize_device_id (s : String) : String :=
  String.mk ((s.data.filter notSeparator).map Char.toLower)

/-! ## Connection supervisor backoff (`InsteonBridge._connect_loop`)

One iteration of the `while not self._stop_event.is_set()` loop
(bridge.py lines 128–165).  `sleep_delay` starts at `base_backoff`;
a successful connect sets `backoff = base` and `sleep_delay = 0`;
the mock-fallback branch sets `sleep_delay = 0` (its `continue` still
runs the `finally` block); a plain failure sets `sleep_delay = backoff`.
The `finally` block sleeps `sleep_delay` when positive and then sets
`backoff = min(max_backoff, max(base_backoff, sleep_delay * 2))`,
otherwise sets `backoff = base_backoff`.  The configured values in the
claim (5 and 60) are integers, so the arithmetic is modelled on `Nat`. -/

inductive ConnectOutcome
  | success
  | mockFallback
  | failure
deriving DecidableEq, Repr

/-- One `_connect_loop` iteration: given the current `backoff` and the
iteration's outcome, return `(delay slept before the next attempt, new
backoff)`; a `0` delay means no sleep happened. -/

def connect_loop_iter (base maxB backoff : Nat) (outcome : ConnectOutcome) : Nat × Nat :=
  let sleep_delay : Nat :=
    match outcome with
    | .success => 0
    | .mockFallback => 0
    | .failure => backoff
  if sleep_delay > 0 then
    (sleep_delay, min maxB (max base (sleep_delay * 2)))
  else
    (0, base)

/-- The delays slept across `n` consecutive failure iterations, starting
from the given current `backoff`. -/

def failureDelays (base maxB : Nat) : Nat → Nat → List Nat
  | _, 0 => []
  | backoff, n + 1 =>
    (connect_loop_iter base maxB backoff .failure).1 ::
      failureDelays base maxB (connect_loop_iter base maxB backoff .failure).2 n

/-! ## Level rescaling in `send_command` (bridge.py lines 560–571)

`level_int = max(0, min(int(level), 255))`; when `level_int <= 100` the
value handed to the capability handler is `int(round((level_int / 100) * 255))`,
otherwise `level_int` itself.  For clamped inputs 0–100 the IEEE-754 double
evaluation of `(level_int / 100) * 255` lands within half an ulp of the exact
rational `255·l/100`, and at each exact half-integer boundary
(`l ∈ {10, 30, 50, 70, 90}`) the double product rounds to the exact
half-integer, so Python's `round` (half to even) applied to it equals
round-half-to-even of the rational `255·l/100`; `roundHalfEven` computes
that on integers. -/

def roundHalfEven (num den : Nat) : Nat :=
  let q := num / den
  let r := num % den
  if 2 * r < den then q
  else if den < 2 * r then q + 1
  else if q % 2 = 0 then q else q + 1

def send_command_level (level : Int) : Int :=
  let level_int := max 0 (min level 255)
  if level_int ≤ 100 then ((roundHalfEven (level_int.toNat * 255) 100 : Nat) : Int)
  else level_int

/-! ## Mock device state (`MockDevice._set_level`, bridge.py lines 817–843)

`_set_level` clamps the argument to [0,255], stores it in the `level`
state channel and sets `on_off` to `1 if clamped else 0`; the state after
any capability invocation does not depend on the previous state. -/

structure MockDeviceChannels where
  level : Int
  on_off : Int
deriving DecidableEq, Repr

def mock_set_level (level : Int) : MockDeviceChannels :=
  let clamped := max 0 (min level 255)
  { level := clamped, on_off := if clamped ≠ 0 then 1 else 0 }

def mock_async_turn_on (level : Option Int) : MockDeviceChannels :=
  mock_set_level (match level with | none => 255 | some l => l)

def mock_async_fast_on (level : Option Int) : MockDeviceChannels :=
  mock_async_turn_on level

def mock_async_turn_off : MockDeviceChannels := mock_set_level 0

def mock_async_fast_off : MockDeviceChannels := mock_async_turn_off

/-- The state-channel invariant of C10. -/

def mockChannelsInv (s : MockDeviceChannels) : Prop :=
  0 ≤ s.level ∧ s.level ≤ 255 ∧ s.on_off = (if s.level ≠ 0 then 1 else 0)

/-! ## Device registry model

A live device handle (`pyinsteon` device object or `MockDevice`) is
modelled by the data the bridge reads from it: its `address.id` string,
the set of attribute names that resolve to truthy capability handlers
(`getattr(device, attr, None)` probing in `_resolve_command_handler`),
the attribute names whose handler raises when invoked, and the remaining
payload of `device_to_snapshot(device).to_dict()` (name, capabilities,
state, …) which the bridge treats opaquely. -/

structure Device where
  address : String
  attrs : List String
  failingAttrs : List String
  rest : List (String × String)
deriving DecidableEq, Repr

/-- A snapshot dictionary as produced by `device_to_snapshot(...).to_dict()`:
the `id`/`address` keys plus the remaining payload. -/

structure Snapshot where
  id : String
  address : String
  rest : List (String × String)
deriving DecidableEq, Repr

/-- `devices.py device_to_snapshot`: `_coerce_address` turns the handle's
`address.id` into the separator-stripped lower-cased string used for both
`id` and `address`. -/

def device_to_snapshot (d : Device) : Snapshot :=
  { id := normalize_device_id d.address, address := normalize_device_id d.address,
    rest := d.rest }

/-- Python `dict` assignment `m[k] = v`: an existing key is overwritten in
place, a new key is appended (keys are unique in a `dict`, so replacing
the first occurrence in place is the dictionary semantics). -/

def assocInsert : List (String × α) → String → α → List (String × α)
  | [], k, v => [(k, v)]
  | p :: rest, k, v =>
    if p.1 = k then (k, v) :: rest else p :: assocInsert rest k v

/-- The bridge state consumed by `get_device` / `send_command`:
`self._device_manager` (`none` when no connection is active, otherwise the
manager with its `values()` device list), `self._device_objects`, and
`self._device_cache`. -/

structure BridgeState where
  manager : Option (List Device)
  deviceObjects : List (String × Device)
  deviceCache : List (String × Snapshot)
deriving DecidableEq, Repr

/-- `InsteonBridge._find_device_by_id` (bridge.py lines 450–463):
check `_device_objects` under the normalized id, else scan
`manager.values()` for a device whose truthy `address.id` normalizes to
the same key. -/

def find_device_by_id (st : BridgeState) (device_id : String) : Option Device :=
  let normalized := normalize_device_id device_id
  match st.deviceObjects.lookup normalized with
  | some d => some d
  | none =>
    match st.manager with
    | none => none
    | some devs =>
      devs.find? (fun d => !(d.address == "") && (normalize_device_id d.address == normalized))

/-- The combined live-handle lookup used by both `get_device` and
`send_command` (`self._device_objects.get(normalized) or
self._find_device_by_id(normalized)`). -/

def lookup_live_device (st : BridgeState) (normalized : String) : Option Device :=
  match st.deviceObjects.lookup normalized with
  | some d => some d
  | none => find_device_by_id st normalized

/-- `InsteonBridge._update_cached_device` (bridge.py lines 337–351), with
`persist=False` (persistence is modelled separately): recompute the
snapshot, bail out on a falsy id, otherwise normalize `id`/`address`,
store the handle and the snapshot, and return the snapshot. -/

def update_cached_device (st : BridgeState) (d : Device) : BridgeState × Snapshot :=
  let snapshot := device_to_snapshot d
  if snapshot.id = "" then (st, snapshot)
  else
    let normalized := normalize_device_id snapshot.id
    let snapshot := { snapshot with id := normalized, address := normalized }
    ({ st with
        deviceObjects := assocInsert st.deviceObjects normalized d,
        deviceCache := assocInsert st.deviceCache normalized snapshot },
      snapshot)

inductive BridgeError
  | bridgeNotConnected
  | deviceNotFound
  | commandUnsupported
  | handlerError
deriving DecidableEq, Repr

/-- `InsteonBridge.get_device` (bridge.py lines 538–549). -/

def get_device (st : BridgeState) (device_id : String) :
    Except BridgeError (BridgeState × Snapshot) :=
  if device_id = "" then .error .deviceNotFound
  else
    let normalized := normalize_device_id device_id
    match lookup_live_device st normalized with
    | some d => .ok (update_cached_device st d)
    | none =>
      match st.deviceCache.lookup normalized with
      | some snap => .ok (st, snap)
      | none => .error .deviceNotFound

/-- Character-wise ASCII `str.lower()` (used on the command string). -/

def str_lower (s : String) : String := String.mk (s.data.map Char.toLower)

/-- `InsteonBridge._resolve_command_handler` (bridge.py lines 601–623),
returning the name of the first candidate attribute present on the device
(`None` when no candidate matches).  `attr_candidates.insert(0, x)` is a
cons, `append` adds at the end. -/

def resolve_command_handler (device : Device) (command0 : String) (fast : Bool) :
    Option String :=
  let command := str_lower command0
  let attr_candidates : List String :=
    if command == "on" || command == "turn_on" then
      let l := ["async_turn_on"]
      if fast then "async_fast_on" :: l else l
    else if command == "off" || command == "turn_off" then
      let l := ["async_turn_off"]
      if fast then "async_fast_off" :: l else l
    else if command == "fast_on" || command == "fast-off" || command == "fast_off" then
      ["async_fast_on", "fast_on", "async_fast_off", "fast_off"]
    else if command == "status" || command == "query" || command == "ping" then
      ["async_status_request", "async_get_status", "async_query_status"]
    else
      ["async_" ++ command, command]
  attr_candidates.find? (fun attr => device.attrs.contains attr)

/-- The `command_ack` payload built on success (bridge.py lines 590–596);
`"type": "command_ack"` is carried by the Lean type itself. -/

structure CommandAck where
  device_id : String
  command : String
  level : Option Int
  fast : Bool
deriving DecidableEq, Repr

deriving instance DecidableEq for Except

/-- The observable outcome of one `send_command` call: the returned value
or raised error, the state after the call, the handler invocation that
took place (attribute name, `level` kwarg, `duration` kwarg), and the
`command_ack` payloads handed to `_publish_event`. -/

structure SendOutcome where
  result : Except BridgeError CommandAck
  newState : BridgeState
  handlerCalled : Option (String × Option Int × Option Int)
  published : List CommandAck
deriving DecidableEq, Repr

/-- `InsteonBridge.send_command` (bridge.py lines 552–599). -/

def send_command (st : BridgeState) (device_id command : String)
    (level : Option Int) (fast : Bool) (duration : Option Int) : SendOutcome :=
  match st.manager with
  | none =>
    { result := .error .bridgeNotConnected, newState := st,
      handlerCalled := none, published := [] }
  | some _ =>
    let normalized := normalize_device_id device_id
    match lookup_live_device st normalized with
    | none =>
      { result := .error .deviceNotFound, newState := st,
        handlerCalled := none, published := [] }
    | some target_device =>
      let original_level := level
      let level_value := level.map send_command_level
      match resolve_command_handler target_device command fast with
      | none =>
        { result := .error .commandUnsupported, newState := st,
          handlerCalled := none, published := [] }
      | some handler =>
        if target_device.failingAttrs.contains handler then
          { result := .error .handlerError, newState := st,
            handlerCalled := some (handler, level_value, duration), published := [] }
        else
          let payload : CommandAck :=
            { device_id := normalized, command := command,
              level := original_level, fast := fast }
          { result := .ok payload,
            newState := (update_cached_device st target_device).1,
            handlerCalled := some (handler, level_value, duration),
            published := [payload] }

/-! ## Cache persistence (`_persist_device_cache` / `_load_cached_devices`,
bridge.py lines 641–675)

Saving serializes `{"devices": list(self._device_cache.values())}` (the
JSON I/O, sorted keys and the temp-file/rename dance do not change the
device list); loading walks the `devices` list, normalizes each entry's
`id`/`address`, and rebuilds the map with the last entry per id winning. -/

def persist_device_cache (cache : List (String × Snapshot)) : List Snapshot :=
  cache.map Prod.snd

/-- Re-normalization applied to one loaded entry. -/

def normalizeEntry (e : Snapshot) : Snapshot :=
  { e with id := normalize_device_id e.id, address := normalize_device_id e.address }

def load_cached_devices_aux (entries : List Snapshot)
    (acc : List (String × Snapshot)) : List (String × Snapshot) :=
  match entries with
  | [] => acc
  | e :: rest =>
    load_cached_devices_aux rest (assocInsert acc (normalize_device_id e.id) (normalizeEntry e))

def load_cached_devices (entries : List Snapshot) : List (String × Snapshot) :=
  load_cached_devices_aux entries []

/-! ## Event queue (`_publish_event`, bridge.py lines 678–684)

Events are modelled as the dictionaries they are; `_publish_event` tags
mock-mode events, then `put_nowait`s into the bounded
`asyncio.Queue(self.config.websocket_event_buffer)` and swallows
`QueueFull` by dropping the new event (an `asyncio.Queue` with
`maxsize <= 0` is unbounded). -/

abbrev EventDict := List (String × String)

def tag_mock_mode (usingMock : Bool) (event : EventDict) : EventDict :=
  if usingMock && (List.lookup "mode" event).isNone then
    assocInsert event "mode" "mock"
  else event

def publish_event (usingMock : Bool) (cap : Nat) (queue : List EventDict)
    (event : EventDict) : List EventDict :=
  let ev := tag_mock_mode usingMock event
  if 0 < cap ∧ cap ≤ queue.length then queue else queue ++ [ev]

/-- Example live device handle used by concrete witnesses. -/

def exLamp : Device :=
  { address := "AA.BB.CC", attrs := ["async_turn_on", "async_fast_on", "async_turn_off"],
    failingAttrs := [], rest := [("name", "Lamp")] }

/-- Example bridge state with an active manager and one live handle. -/

def exStateLive : BridgeState :=
  { manager := some [exLamp], deviceObjects := [("aabbcc", exLamp)], deviceCache := [] }

/-- Example cached snapshot used by concrete witnesses. -/

def exSnap : Snapshot := { id := "445566", address := "445566", rest := [("name", "Porch")] }

/-- Example disconnected bridge state with only a cached snapshot. -/

def exStateCache : BridgeState :=
  { manager := none, deviceObjects := [], deviceCache := [("445566", exSnap)] }

/-- Example empty bridge state. -/

def exStateEmpty : BridgeState :=
  { manager := none, deviceObjects := [], deviceCache := [] }

/-! ## C7: command-handler resolution order -/

/-- The candidate list as the claim words it: named categories as listed,
and "any other command name is tried as a direct capability name". -/

def claimed_candidates (command0 : String) (fast : Bool) : List String :=
  let command := str_lower command0
  if command == "on" || command == "turn_on" then
    if fast then ["async_fast_on", "async_turn_on"] else ["async_turn_on"]
  else if command == "off" || command == "turn_off" then
    if fast then ["async_fast_off", "async_turn_off"] else ["async_turn_off"]
  else if command == "fast_on" || command == "fast_off" then
    ["async_fast_on", "fast_on", "async_fast_off", "fast_off"]
  else if command == "status" || command == "query" || command == "ping" then
    ["async_status_request", "async_get_status", "async_query_status"]
  else
    [command]

/-- The candidate list the code actually probes: as the claim says, except
that the hyphenated spelling "fast-off" also lands in the fast category and
that any other command is tried with the `async_`-prefix first, then as a
direct capability name. -/

def amended_candidates (command0 : String) (fast : Bool) : List String :=
  let command := str_lower command0
  if command == "on" || command == "turn_on" then
    if fast then ["async_fast_on", "async_turn_on"] else ["async_turn_on"]
  else if command == "off" || command == "turn_off" then
    if fast then ["async_fast_off", "async_turn_off"] else ["async_turn_off"]
  else if command == "fast_on" || command == "fast-off" || command == "fast_off" then
    ["async_fast_on", "fast_on", "async_fast_off", "fast_off"]
  else if command == "status" || command == "query" || command == "ping" then
    ["async_status_request", "async_get_status", "async_query_status"]
  else
    ["async_" ++ command, command]

/-- Example cache (normalized keys, unique) used by the C5 witness. -/

def exCache : List (String × Snapshot) :=
  [("aabbcc", { id := "aabbcc", address := "aabbcc", rest := [("name", "Lamp")] }),
   ("445566", { id := "445566", address := "445566", rest := [("name", "Porch")] })]

/-- `Char.toLower` as an `if` on code points. -/

theorem charToLower_eq (c : Char) :
    c.toLower = if c.toNat ≥ 65 ∧ c.toNat ≤ 90 then Char.ofNat (c.toNat + 32) else c := by
  simp only [Char.toLower]

theorem toNat_ofNat_of_le (n : Nat) (h : n ≤ 122) : (Char.ofNat n).toNat = n := by
  have hv : n.isValidChar := Or.inl (by omega)
  simp [Char.ofNat, hv]
  rfl

theorem charToLower_toNat (c : Char) :
    c.toLower.toNat = if c.toNat ≥ 65 ∧ c.toNat ≤ 90 then c.toNat + 32 else c.toNat := by
  rw [charToLower_eq]
  split
  · next h => exact toNat_ofNat_of_le _ (by omega)
  · rfl

theorem charToLower_idem (c : Char) : c.toLower.toLower = c.toLower := by
  by_cases h : c.toNat ≥ 65 ∧ c.toNat ≤ 90
  · rw [charToLower_eq c, if_pos h, charToLower_eq,
      if_neg (by rw [toNat_ofNat_of_le _ (by omega)]; omega)]
  · rw [charToLower_eq c, if_neg h, charToLower_eq c, if_neg h]

theorem notSeparator_toLower (c : Char) (h : notSeparator c = true) :
    notSeparator c.toLower = true := by
  by_cases hc : c.toNat ≥ 65 ∧ c.toNat ≤ 90
  · have ht : c.toLower.toNat = c.toNat + 32 := by rw [charToLower_toNat, if_pos hc]
    simp only [notSeparator, Bool.and_eq_true, Bool.not_eq_true', beq_eq_false_iff_ne,
      ne_eq] at h ⊢
    have hd : ('.' : Char).toNat = 46 := by decide
    have hcol : (':' : Char).toNat = 58 := by decide
    constructor
    · intro he; have := congrArg Char.toNat he; rw [ht, hd] at this; omega
    · intro he; have := congrArg Char.toNat he; rw [ht, hcol] at this; omega
  · rw [charToLower_eq c, if_neg hc]; exact h

theorem normalize_device_id_idem (s : String) :
    normalize_device_id (normalize_device_id s) = normalize_device_id s := by
  unfold normalize_device_id
  congr 1
  rw [List.filter_map]
  have hfil : ((s.data.filter notSeparator).filter (notSeparator ∘ Char.toLower))
      = s.data.filter notSeparator := by
    apply List.filter_eq_self.mpr
    intro c hc
    exact notSeparator_toLower c (List.of_mem_filter hc)
  rw [hfil, List.map_map]
  exact List.map_congr_left (fun c _ => charToLower_idem c)

theorem backoff_step_5_60 (x : Nat) (hx : 5 ≤ x) :
    min 60 (max 5 (min 60 x * 2)) = min 60 (x * 2) := by omega

theorem failureDelays_5_60_from (n k : Nat) :
    failureDelays 5 60 (min 60 (5 * 2 ^ k)) n
      = (List.range n).map (fun i => min 60 (5 * 2 ^ (k + i))) := by
  induction n generalizing k with
  | zero => simp [failureDelays]
  | succ n ih =>
    have hx : 5 ≤ 5 * 2 ^ k := by
      have h1 : 1 ≤ 2 ^ k := Nat.one_le_two_pow
      omega
    have hpos : 0 < min 60 (5 * 2 ^ k) := by omega
    have hiter : connect_loop_iter 5 60 (min 60 (5 * 2 ^ k)) .failure
        = (min 60 (5 * 2 ^ k), min 60 (5 * 2 ^ (k + 1))) := by
      simp only [connect_loop_iter, if_pos hpos]
      refine Prod.ext rfl ?_
      have : 5 * 2 ^ (k + 1) = 5 * 2 ^ k * 2 := by ring
      rw [this]
      exact backoff_step_5_60 _ hx
    rw [failureDelays, hiter]
    simp only
    rw [ih (k + 1), List.range_succ_eq_map, List.map_cons, List.map_map]
    refine congrArg₂ _ (by simp) ?_
    refine List.map_congr_left (fun i _ => ?_)
    simp only [Function.comp]
    have : k + 1 + i = k + (i + 1) := by omega
    rw [this]

/-- **C1**: with `reconnect_initial = 5` and `reconnect_max = 60`, a run of
consecutive connection failures makes `_connect_loop` sleep
5, 10, 20, 40, 60, 60, … seconds before successive retries (the `i`-th
delay is `min 60 (5·2^i)`), and after a successful connection (or a
mock-fallback activation) the next backoff is reset to 5 with no sleep. -/

theorem claim_C1_backoff_sequence :
    (∀ n, failureDelays 5 60 5 n = (List.range n).map (fun i => min 60 (5 * 2 ^ i)))
    ∧ failureDelays 5 60 5 6 = [5, 10, 20, 40, 60, 60]
    ∧ (∀ b, connect_loop_iter 5 60 b ConnectOutcome.success = (0, 5))
    ∧ (∀ b, connect_loop_iter 5 60 b ConnectOutcome.mockFallback = (0, 5)) := by
  refine ⟨fun n => ?_, by decide, fun b => rfl, fun b => rfl⟩
  have h := failureDelays_5_60_from n 0
  simpa using h

/-- **C2**: device-id normalization is idempotent and
case/separator-insensitive. -/

theorem claim_C2_normalize_idempotent :
    (∀ s : String, normalize_device_id (normalize_device_id s) = normalize_device_id s)
    ∧ normalize_device_id "AA.BB.CC" = normalize_device_id "aabbcc"
    ∧ normalize_device_id "aabbcc" = normalize_device_id "AA:BB:CC"
    ∧ normalize_device_id "AA.BB.CC" = "aabbcc" :=
  ⟨normalize_device_id_idem, by decide, by decide, by decide⟩

/-- **C3**: the level is clamped to [0,255]; clamped values ≤ 100 are
rescaled to the nearest integer of `level·255/100` (ties to even), clamped
values > 100 pass through unchanged; concrete points 0↦0, 50↦128, 100↦255,
101↦101, 300↦255. -/

theorem claim_C3_level_rescaling :
    send_command_level 0 = 0 ∧ send_command_level 50 = 128
    ∧ send_command_level 100 = 255 ∧ send_command_level 101 = 101
    ∧ send_command_level 300 = 255
    ∧ (∀ l : Int, l ≤ 0 → send_command_level l = 0)
    ∧ (∀ l : Int, 255 ≤ l → send_command_level l = 255)
    ∧ (∀ l : Int, 100 < l → l ≤ 255 → send_command_level l = l)
    ∧ (∀ l : Int, send_command_level l = send_command_level (max 0 (min l 255)))
    ∧ (∀ l : Int, 0 ≤ l → l ≤ 100 → 2 * |send_command_level l * 100 - l * 255| ≤ 100)
    ∧ (∀ l : Int, 0 ≤ l → l ≤ 100 → (l * 255) % 100 = 50 → send_command_level l % 2 = 0) := by
  refine ⟨by decide, by decide, by decide, by decide, by decide,
    fun l hl => ?_, fun l hl => ?_, fun l h1 h2 => ?_, fun l => ?_,
    fun l h1 h2 => ?_, fun l h1 h2 h3 => ?_⟩
  · have h0 : max 0 (min l 255) = 0 := by omega
    simp only [send_command_level, h0]
    decide
  · have h0 : max 0 (min l 255) = 255 := by omega
    simp only [send_command_level, h0]
    decide
  · have h0 : max 0 (min l 255) = l := by omega
    simp only [send_command_level, h0, if_neg (by omega : ¬ l ≤ 100)]
  · have h0 : max 0 (min (max 0 (min l 255)) 255) = max 0 (min l 255) := by omega
    simp only [send_command_level, h0]
  · interval_cases l <;> decide
  · interval_cases l <;> revert h3 <;> decide

/-- **C10**: after every capability invocation on a `MockDevice`, `level`
lies in [0,255] and `on_off` is 1 exactly when `level` is nonzero (else 0);
turn-on without a level sets `level` to 255 and turn-off sets it to 0. -/

theorem claim_C10_mock_state_invariant :
    (∀ l : Option Int, mockChannelsInv (mock_async_turn_on l)
        ∧ mockChannelsInv (mock_async_fast_on l))
    ∧ mockChannelsInv mock_async_turn_off
    ∧ mockChannelsInv mock_async_fast_off
    ∧ mock_async_turn_on none = ⟨255, 1⟩
    ∧ mock_async_turn_off = ⟨0, 0⟩ := by
  have hinv : ∀ l : Int, mockChannelsInv (mock_set_level l) := by
    intro l
    simp only [mock_set_level, mockChannelsInv]
    refine ⟨by omega, by omega, trivial⟩
  refine ⟨fun l => ?_, hinv 0, hinv 0, by decide, by decide⟩
  cases l with
  | none => exact ⟨hinv 255, hinv 255⟩
  | some v => exact ⟨hinv v, hinv v⟩

/-- Witness for C3 at concrete inputs. -/

theorem claim_C3_level_rescaling_witness :
    send_command_level (-7) = 0 ∧ send_command_level 300 = 255
    ∧ send_command_level 150 = 150
    ∧ send_command_level 150 = send_command_level (max 0 (min 150 255))
    ∧ 2 * |send_command_level 30 * 100 - 30 * 255| ≤ 100
    ∧ send_command_level 30 % 2 = 0 :=
  ⟨claim_C3_level_rescaling.2.2.2.2.2.1 (-7) (by norm_num),
   claim_C3_level_rescaling.2.2.2.2.2.2.1 300 (by norm_num),
   claim_C3_level_rescaling.2.2.2.2.2.2.2.1 150 (by norm_num) (by norm_num),
   claim_C3_level_rescaling.2.2.2.2.2.2.2.2.1 150,
   claim_C3_level_rescaling.2.2.2.2.2.2.2.2.2.1 30 (by norm_num) (by norm_num),
   claim_C3_level_rescaling.2.2.2.2.2.2.2.2.2.2 30 (by norm_num) (by norm_num) (by decide)⟩

/-- **C6**: enqueuing into a full bounded queue drops the newest event and
leaves the queue unchanged (hence still at capacity); a non-full (or
unbounded, `cap = 0`) queue appends; the producer never sees an exception
(`publish_event` is total and swallows `QueueFull`). -/

theorem claim_C6_queue_overflow :
    (∀ (usingMock : Bool) (cap : Nat) (q : List EventDict) (e : EventDict),
        0 < cap → cap ≤ q.length → publish_event usingMock cap q e = q)
    ∧ (∀ (usingMock : Bool) (cap : Nat) (q : List EventDict) (e : EventDict),
        q.length < cap →
          publish_event usingMock cap q e = q ++ [tag_mock_mode usingMock e])
    ∧ (∀ (usingMock : Bool) (q : List EventDict) (e : EventDict),
        publish_event usingMock 0 q e = q ++ [tag_mock_mode usingMock e])
    ∧ (∀ (usingMock : Bool) (cap : Nat) (q : List EventDict) (e : EventDict),
        0 < cap → q.length ≤ cap →
          (publish_event usingMock cap q e).length ≤ cap) := by
  refine ⟨fun u cap q e h1 h2 => ?_, fun u cap q e h => ?_, fun u q e => ?_,
    fun u cap q e h1 h2 => ?_⟩
  · simp only [publish_event]
    rw [if_pos ⟨h1, h2⟩]
  · simp only [publish_event]
    rw [if_neg (by omega)]
  · simp only [publish_event]
    rw [if_neg (by omega)]
  · simp only [publish_event]
    split
    · omega
    · next hc =>
      simp only [List.length_append, List.length_cons, List.length_nil]
      omega

/-- Witness for C6 at a concrete full queue and a concrete non-full queue. -/

theorem claim_C6_queue_overflow_witness :
    publish_event false 2 [[("type", "a")], [("type", "b")]] [("type", "c")]
      = [[("type", "a")], [("type", "b")]]
    ∧ publish_event false 2 [[("type", "a")]] [("type", "c")]
      = [[("type", "a")], tag_mock_mode false [("type", "c")]]
    ∧ (publish_event false 2 [[("type", "a")], [("type", "b")]] [("type", "c")]).length ≤ 2 :=
  ⟨claim_C6_queue_overflow.1 false 2 _ _ (by norm_num) (by norm_num),
   claim_C6_queue_overflow.2.1 false 2 _ _ (by norm_num),
   claim_C6_queue_overflow.2.2.2 false 2 _ _ (by norm_num) (by norm_num)⟩

/-! ## C9: `get_device` lookup order -/

/-- Counterexample to C9 as stated: `get_device` raises on the empty id
before any lookup (`if not device_id: raise DeviceNotFoundError`), yet
`_load_cached_devices` can populate the cache under the key `""` (an
entry `{"id": ""}` in the cache file), so "raises DeviceNotFound iff the
normalized id is absent from both live handles and cache" fails at
`device_id = ""`. -/

theorem claim_C9_counterexample :
    get_device
        { manager := none, deviceObjects := [],
          deviceCache := [("", { id := "", address := "", rest := [] })] } ""
      = .error .deviceNotFound
    ∧ List.lookup (normalize_device_id "")
        [("", ({ id := "", address := "", rest := [] } : Snapshot))]
      = some { id := "", address := "", rest := [] }
    ∧ load_cached_devices [{ id := "", address := "", rest := [] }]
      = [("", { id := "", address := "", rest := [] })] := by
  refine ⟨rfl, rfl, rfl⟩

/-- **C9 (amended)**: for every *nonempty* id, `get_device` normalizes it,
prefers the live-handle lookup (returning the freshly recomputed,
re-cached snapshot), falls back to the cached snapshot, and raises
DeviceNotFound iff the normalized id is absent from both; the empty id
always raises DeviceNotFound. -/

theorem claim_C9_get_device_lookup :
    (∀ (st : BridgeState) (device_id : String), device_id ≠ "" →
      (get_device st device_id = .error .deviceNotFound
        ↔ lookup_live_device st (normalize_device_id device_id) = none
          ∧ List.lookup (normalize_device_id device_id) st.deviceCache = none)
      ∧ (∀ d, lookup_live_device st (normalize_device_id device_id) = some d →
          get_device st device_id = .ok (update_cached_device st d))
      ∧ (∀ snap, lookup_live_device st (normalize_device_id device_id) = none →
          List.lookup (normalize_device_id device_id) st.deviceCache = some snap →
          get_device st device_id = .ok (st, snap)))
    ∧ (∀ st : BridgeState, get_device st "" = .error .deviceNotFound) := by
  constructor
  · intro st device_id hne
    have hget : get_device st device_id
        = match lookup_live_device st (normalize_device_id device_id) with
          | some d => .ok (update_cached_device st d)
          | none =>
            match List.lookup (normalize_device_id device_id) st.deviceCache with
            | some snap => .ok (st, snap)
            | none => .error .deviceNotFound := by
      simp only [get_device, if_neg hne]
    refine ⟨?_, ?_, ?_⟩
    · rw [hget]
      cases hl : lookup_live_device st (normalize_device_id device_id) with
      | some d => simp
      | none =>
        cases hc : List.lookup (normalize_device_id device_id) st.deviceCache with
        | some snap => simp
        | none => simp
    · intro d hd
      rw [hget, hd]
    · intro snap hl hc
      rw [hget, hl, hc]
  · intro st
    simp [get_device]

/-- Witness for the amended C9 at concrete states: a live hit, a cache
fallback, and a miss. -/

theorem claim_C9_get_device_lookup_witness :
    get_device exStateLive "AA.BB.CC" = .ok (update_cached_device exStateLive exLamp)
    ∧ get_device exStateCache "44.55.66" = .ok (exStateCache, exSnap)
    ∧ get_device exStateEmpty "77.88.99" = .error .deviceNotFound := by
  refine ⟨?_, ?_, ?_⟩
  · exact (claim_C9_get_device_lookup.1 exStateLive "AA.BB.CC" (by decide)).2.1 exLamp
      (by decide)
  · exact (claim_C9_get_device_lookup.1 exStateCache "44.55.66" (by decide)).2.2 exSnap
      (by decide) (by decide)
  · exact ((claim_C9_get_device_lookup.1 exStateEmpty "77.88.99" (by decide)).1).mpr
      ⟨by decide, by decide⟩

/-- Counterexample to C7 as stated: for the command `"beep"` on a device
exposing only `async_beep`, the code resolves `async_beep`, while "tried
as a direct capability name" yields no candidate attribute present. -/

theorem claim_C7_counterexample :
    resolve_command_handler
        { address := "AA.BB.CC", attrs := ["async_beep"], failingAttrs := [], rest := [] }
        "beep" false
      = some "async_beep"
    ∧ (claimed_candidates "beep" false).find?
        (fun attr => (["async_beep"] : List String).contains attr) = none := by
  refine ⟨rfl, rfl⟩

/-- **C7 (amended)**: `_resolve_command_handler` returns the first
attribute present on the device among the ordered candidates:
`on`/`turn_on` → fast-on first iff `fast`, then plain turn-on;
`off`/`turn_off` symmetric; `fast_on`/`fast_off` (and the hyphenated
"fast-off") → all fast/plain spellings; `status`/`query`/`ping` →
status-request, get-status, query-status; any other command → the
`async_`-prefixed spelling, then the direct capability name. -/

theorem claim_C7_resolution_order :
    ∀ (d : Device) (command : String) (fast : Bool),
      resolve_command_handler d command fast
        = (amended_candidates command fast).find? (fun attr => d.attrs.contains attr) := by
  intro d command fast
  cases fast <;> rfl

/-- **C4**: `send_command` fails with BridgeNotConnected iff no device
manager is active; otherwise with DeviceNotFound iff the normalized id
resolves to no live handle (registry map or gateway search); otherwise
with CommandUnsupported iff no candidate capability handler is present;
and no `command_ack` is published on any failure. -/

theorem claim_C4_send_command_failures :
    ∀ (st : BridgeState) (device_id command : String) (level : Option Int)
      (fast : Bool) (duration : Option Int),
      ((send_command st device_id command level fast duration).result
          = .error .bridgeNotConnected ↔ st.manager = none)
      ∧ (st.manager ≠ none →
          ((send_command st device_id command level fast duration).result
              = .error .deviceNotFound
            ↔ lookup_live_device st (normalize_device_id device_id) = none))
      ∧ (∀ d, st.manager ≠ none →
          lookup_live_device st (normalize_device_id device_id) = some d →
          ((send_command st device_id command level fast duration).result
              = .error .commandUnsupported
            ↔ resolve_command_handler d command fast = none))
      ∧ (∀ e, (send_command st device_id command level fast duration).result = .error e →
          (send_command st device_id command level fast duration).published = []) := by
  intro st device_id command level fast duration
  cases hm : st.manager with
  | none => simp [send_command, hm]
  | some mgr =>
    cases hl : lookup_live_device st (normalize_device_id device_id) with
    | none => simp [send_command, hm, hl]
    | some d =>
      cases hr : resolve_command_handler d command fast with
      | none => simp [send_command, hm, hl, hr]
      | some hd =>
        by_cases hf : hd ∈ d.failingAttrs
        · simp [send_command, hm, hl, hr, hf]
        · simp [send_command, hm, hl, hr, hf]

/-- Witness for C4: each failure kind and the empty publish list at
concrete inputs. -/

theorem claim_C4_send_command_failures_witness :
    (send_command exStateEmpty "AA.BB.CC" "on" none false none).result
      = .error .bridgeNotConnected
    ∧ (send_command exStateLive "77.88.99" "on" none false none).result
      = .error .deviceNotFound
    ∧ (send_command exStateLive "AA.BB.CC" "beep" none false none).result
      = .error .commandUnsupported
    ∧ (send_command exStateLive "AA.BB.CC" "beep" none false none).published = [] := by
  refine ⟨?_, ?_, ?_, ?_⟩
  · exact (claim_C4_send_command_failures exStateEmpty "AA.BB.CC" "on" none false none).1.mpr
      rfl
  · exact ((claim_C4_send_command_failures exStateLive "77.88.99" "on" none false
      none).2.1 (by decide)).mpr (by decide)
  · exact ((claim_C4_send_command_failures exStateLive "AA.BB.CC" "beep" none false
      none).2.2.1 exLamp (by decide) (by decide)).mpr (by decide)
  · exact (claim_C4_send_command_failures exStateLive "AA.BB.CC" "beep" none false
      none).2.2.2 .commandUnsupported
      (((claim_C4_send_command_failures exStateLive "AA.BB.CC" "beep" none false
        none).2.2.1 exLamp (by decide) (by decide)).mpr (by decide))

/-- **C8**: a successful `send_command` returns and publishes a
`command_ack` carrying the normalized device id, the command name, the
fast flag, and the caller's original un-rescaled level, while the handler
itself received the rescaled level. -/

theorem claim_C8_ack_original_level :
    ∀ (st : BridgeState) (device_id command : String) (level : Option Int)
      (fast : Bool) (duration : Option Int) (ack : CommandAck),
      (send_command st device_id command level fast duration).result = .ok ack →
      ack.device_id = normalize_device_id device_id
      ∧ ack.command = command ∧ ack.level = level ∧ ack.fast = fast
      ∧ (send_command st device_id command level fast duration).published = [ack]
      ∧ (∃ h, (send_command st device_id command level fast duration).handlerCalled
          = some (h, level.map send_command_level, duration)) := by
  intro st device_id command level fast duration ack hok
  cases hm : st.manager with
  | none => simp [send_command, hm] at hok
  | some mgr =>
    cases hl : lookup_live_device st (normalize_device_id device_id) with
    | none => simp [send_command, hm, hl] at hok
    | some d =>
      cases hr : resolve_command_handler d command fast with
      | none => simp [send_command, hm, hl, hr] at hok
      | some hd =>
        by_cases hf : hd ∈ d.failingAttrs
        · simp [send_command, hm, hl, hr, hf] at hok
        · have hsend : send_command st device_id command level fast duration
              = ⟨.ok ⟨normalize_device_id device_id, command, level, fast⟩,
                 (update_cached_device st d).1,
                 some (hd, level.map send_command_level, duration),
                 [⟨normalize_device_id device_id, command, level, fast⟩]⟩ := by
            simp [send_command, hm, hl, hr, hf]
          rw [hsend] at hok
          rw [hsend]
          simp only [Except.ok.injEq] at hok
          subst hok
          exact ⟨rfl, rfl, rfl, rfl, rfl, ⟨hd, rfl⟩⟩

/-- Witness for C8: `sendCommand("AA.BB.CC", "on", level=50)` publishes an
ack with level 50 while the handler was invoked with level 128. -/

theorem claim_C8_ack_original_level_witness :
    (send_command exStateLive "AA.BB.CC" "on" (some 50) false none).published
      = [{ device_id := "aabbcc", command := "on", level := some 50, fast := false }]
    ∧ (∃ h, (send_command exStateLive "AA.BB.CC" "on" (some 50) false none).handlerCalled
        = some (h, Option.map send_command_level (some 50), none))
    ∧ Option.map send_command_level (some 50) = some 128 :=
  ⟨(claim_C8_ack_original_level exStateLive "AA.BB.CC" "on" (some 50) false none
      { device_id := "aabbcc", command := "on", level := some 50, fast := false }
      (by decide)).2.2.2.2.1,
   (claim_C8_ack_original_level exStateLive "AA.BB.CC" "on" (some 50) false none
      { device_id := "aabbcc", command := "on", level := some 50, fast := false }
      (by decide)).2.2.2.2.2,
   by decide⟩

/-! ## C5: cache persistence round-trip -/

theorem lookup_cons (k : String) (p : String × α) (l : List (String × α)) :
    List.lookup k (p :: l) = if k = p.1 then some p.2 else List.lookup k l := by
  by_cases h : k = p.1
  · have hb : (k == p.1) = true := beq_iff_eq.mpr h
    simp [List.lookup, hb, h]
  · have hb : (k == p.1) = false := beq_eq_false_iff_ne.mpr h
    simp [List.lookup, hb, h]

theorem lookup_assocInsert_self (l : List (String × α)) (k : String) (v : α) :
    List.lookup k (assocInsert l k v) = some v := by
  induction l with
  | nil => simp [assocInsert, lookup_cons]
  | cons p rest ih =>
    by_cases hp : p.1 = k
    · simp [assocInsert, hp, lookup_cons]
    · simp [assocInsert, hp, lookup_cons, Ne.symm hp, ih]

theorem lookup_assocInsert_ne (l : List (String × α)) (k k' : String) (v : α)
    (h : k' ≠ k) : List.lookup k' (assocInsert l k v) = List.lookup k' l := by
  induction l with
  | nil => simp [assocInsert, lookup_cons, h]
  | cons p rest ih =>
    by_cases hp : p.1 = k
    · have hk' : k' ≠ p.1 := fun hc => h (hc.trans hp)
      simp [assocInsert, hp, lookup_cons, h, hk']
    · simp [assocInsert, hp, lookup_cons, ih]

theorem find?_append_match (l₁ l₂ : List α) (p : α → Bool) :
    (l₁ ++ l₂).find? p
      = match l₁.find? p with
        | some x => some x
        | none => l₂.find? p := by
  induction l₁ with
  | nil => rfl
  | cons a l ih =>
    by_cases hp : p a
    · simp [List.find?_cons_of_pos _ hp]
    · simp only [List.cons_append, List.find?_cons_of_neg _ hp, ih,
        List.find?_cons_of_neg _ hp]

theorem load_aux_lookup (entries : List Snapshot) (acc : List (String × Snapshot))
    (k : String) :
    List.lookup k (load_cached_devices_aux entries acc)
      = match entries.reverse.find? (fun e => normalize_device_id e.id == k) with
        | some e => some (normalizeEntry e)
        | none => List.lookup k acc := by
  induction entries generalizing acc with
  | nil => simp [load_cached_devices_aux]
  | cons e rest ih =>
    rw [load_cached_devices_aux, ih, List.reverse_cons, find?_append_match]
    cases hfind : rest.reverse.find? (fun e' => normalize_device_id e'.id == k) with
    | some e' => simp
    | none =>
      simp only
      by_cases hk : normalize_device_id e.id = k
      · rw [List.find?_cons_of_pos _ (by simp [hk])]
        rw [hk, lookup_assocInsert_self]
      · rw [List.find?_cons_of_neg _ (by simp [hk]), List.find?_nil]
        rw [lookup_assocInsert_ne _ _ _ _ (fun hne => hk hne.symm)]

theorem load_lookup_some_iff (entries : List Snapshot)
    (hnd : (entries.map (fun e => normalize_device_id e.id)).Nodup)
    (k : String) (s : Snapshot) :
    List.lookup k (load_cached_devices entries) = some s
      ↔ ∃ e, e ∈ entries ∧ normalize_device_id e.id = k ∧ normalizeEntry e = s := by
  rw [load_cached_devices, load_aux_lookup]
  constructor
  · intro h
    cases hfind : entries.reverse.find? (fun e' => normalize_device_id e'.id == k) with
    | none => rw [hfind] at h; simp [List.lookup] at h
    | some e =>
      rw [hfind] at h
      simp only [Option.some.injEq] at h
      have hmem : e ∈ entries := List.mem_reverse.mp (List.mem_of_find?_eq_some hfind)
      have hpred := List.find?_some hfind
      exact ⟨e, hmem, by simpa using hpred, h⟩
  · rintro ⟨e, hmem, hkey, hs⟩
    have hsome : (entries.reverse.find? (fun e' => normalize_device_id e'.id == k)).isSome := by
      rw [List.find?_isSome]
      exact ⟨e, List.mem_reverse.mpr hmem, by simp [hkey]⟩
    cases hfind : entries.reverse.find? (fun e' => normalize_device_id e'.id == k) with
    | none => rw [hfind] at hsome; simp at hsome
    | some e' =>
      have hmem' : e' ∈ entries := List.mem_reverse.mp (List.mem_of_find?_eq_some hfind)
      have hpred' : normalize_device_id e'.id = k := by simpa using List.find?_some hfind
      have hee : e' = e :=
        List.inj_on_of_nodup_map hnd hmem' hmem (by rw [hpred', hkey])
      simp [hee, hs]

theorem load_perm_lookup (l₁ l₂ : List Snapshot) (hp : l₁.Perm l₂)
    (hnd : (l₁.map (fun e => normalize_device_id e.id)).Nodup) (k : String) :
    List.lookup k (load_cached_devices l₁) = List.lookup k (load_cached_devices l₂) := by
  have hnd₂ : (l₂.map (fun e => normalize_device_id e.id)).Nodup :=
    ((hp.map _).nodup_iff).mp hnd
  cases h₁ : List.lookup k (load_cached_devices l₁) with
  | some s =>
    obtain ⟨e, hmem, hkey, hs⟩ := (load_lookup_some_iff l₁ hnd k s).mp h₁
    exact ((load_lookup_some_iff l₂ hnd₂ k s).mpr ⟨e, hp.mem_iff.mp hmem, hkey, hs⟩).symm
  | none =>
    cases h₂ : List.lookup k (load_cached_devices l₂) with
    | none => rfl
    | some s =>
      obtain ⟨e, hmem, hkey, hs⟩ := (load_lookup_some_iff l₂ hnd₂ k s).mp h₂
      rw [(load_lookup_some_iff l₁ hnd k s).mpr ⟨e, hp.mem_iff.mpr hmem, hkey, hs⟩] at h₁
      exact absurd h₁ (by simp)

theorem assocInsert_append_of_not_key (acc : List (String × α)) (k : String) (v : α)
    (h : ∀ q ∈ acc, q.1 ≠ k) : assocInsert acc k v = acc ++ [(k, v)] := by
  induction acc with
  | nil => rfl
  | cons p rest ih =>
    have hp : p.1 ≠ k := h p (List.mem_cons_self _ _)
    simp [assocInsert, hp, ih (fun q hq => h q (List.mem_cons_of_mem _ hq))]

theorem load_aux_persist (cache : List (String × Snapshot)) :
    ∀ acc : List (String × Snapshot),
      (∀ p ∈ cache, p.2.id = p.1 ∧ p.2.address = p.1 ∧ normalize_device_id p.1 = p.1) →
      (cache.map Prod.fst).Nodup →
      (∀ p ∈ cache, ∀ q ∈ acc, q.1 ≠ p.1) →
      load_cached_devices_aux (cache.map Prod.snd) acc = acc ++ cache := by
  induction cache with
  | nil =>
    intro acc _ _ _
    simp [load_cached_devices_aux]
  | cons p rest ih =>
    rcases p with ⟨pk, psnap⟩
    rcases psnap with ⟨pi, pa, pr⟩
    intro acc hinv hnd hdisj
    obtain ⟨hid, haddr, hnorm⟩ := hinv _ (List.mem_cons_self _ _)
    simp only at hid haddr hnorm
    have hkey : normalize_device_id pi = pk := by rw [hid]; exact hnorm
    have hkeya : normalize_device_id pa = pk := by rw [haddr]; exact hnorm
    have hentry : normalizeEntry ⟨pi, pa, pr⟩ = ⟨pi, pa, pr⟩ := by
      simp only [normalizeEntry]
      rw [hkey, hkeya, hid, haddr]
    rw [List.map_cons, load_cached_devices_aux]
    simp only [hkey, hentry]
    rw [assocInsert_append_of_not_key acc pk _
      (fun q hq => hdisj _ (List.mem_cons_self _ _) q hq)]
    have hndc : (pk :: rest.map Prod.fst).Nodup := by simpa using hnd
    have hnd2 := List.nodup_cons.mp hndc
    refine (ih (acc ++ [(pk, ⟨pi, pa, pr⟩)])
      (fun q hq => hinv q (List.mem_cons_of_mem _ hq)) hnd2.2 ?_).trans ?_
    · intro p' hp' q hq
      rcases List.mem_append.mp hq with hqa | hqs
      · exact hdisj p' (List.mem_cons_of_mem _ hp') q hqa
      · have hq' : q = (pk, (⟨pi, pa, pr⟩ : Snapshot)) := by simpa using hqs
        subst hq'
        intro hcon
        apply hnd2.1
        have hck : pk = p'.1 := hcon
        rw [hck]
        exact List.mem_map_of_mem Prod.fst hp'
    · simp

theorem load_persist_exact (cache : List (String × Snapshot))
    (hinv : ∀ p ∈ cache, p.2.id = p.1 ∧ p.2.address = p.1
      ∧ normalize_device_id p.1 = p.1)
    (hnd : (cache.map Prod.fst).Nodup) :
    load_cached_devices (persist_device_cache cache) = cache := by
  rw [persist_device_cache, load_cached_devices]
  simpa using load_aux_persist cache [] hinv hnd (by simp)

theorem load_append_last (entries : List Snapshot) (e : Snapshot) :
    List.lookup (normalize_device_id e.id) (load_cached_devices (entries ++ [e]))
      = some (normalizeEntry e) := by
  rw [load_cached_devices, load_aux_lookup, List.reverse_append]
  simp only [List.reverse_cons, List.reverse_nil, List.nil_append, List.singleton_append]
  rw [List.find?_cons_of_pos _ (by simp)]

/-- **C5**: persisting a cache whose keys are normalized and mirrored in
each snapshot's `id`/`address` and then loading the resulting `devices`
list rebuilds exactly the same id→snapshot mapping; loading any
permutation of that list yields the same mapping; on load ids are
re-normalized and the last entry per id wins. -/

theorem claim_C5_cache_roundtrip :
    ∀ cache : List (String × Snapshot),
      (∀ p ∈ cache, p.2.id = p.1 ∧ p.2.address = p.1
        ∧ normalize_device_id p.1 = p.1) →
      (cache.map Prod.fst).Nodup →
      load_cached_devices (persist_device_cache cache) = cache
      ∧ (∀ l' : List Snapshot, (persist_device_cache cache).Perm l' →
          ∀ k, List.lookup k (load_cached_devices l') = List.lookup k cache)
      ∧ (∀ (entries : List Snapshot) (e : Snapshot),
          List.lookup (normalize_device_id e.id)
              (load_cached_devices (entries ++ [e]))
            = some (normalizeEntry e)) := by
  intro cache hinv hnd
  have hnd' : ((persist_device_cache cache).map
      (fun e => normalize_device_id e.id)).Nodup := by
    have hmaps : (persist_device_cache cache).map (fun e => normalize_device_id e.id)
        = cache.map Prod.fst := by
      rw [persist_device_cache, List.map_map]
      apply List.map_congr_left
      intro p hp
      obtain ⟨hid, _, hnorm⟩ := hinv p hp
      simp [Function.comp, hid, hnorm]
    rw [hmaps]
    exact hnd
  refine ⟨load_persist_exact cache hinv hnd, ?_, fun entries e => load_append_last entries e⟩
  intro l' hperm k
  rw [← load_perm_lookup (persist_device_cache cache) l' hperm hnd' k,
    load_persist_exact cache hinv hnd]

/-- Witness for C5: round trip of a concrete two-entry cache, including a
reordered devices list. -/

theorem claim_C5_cache_roundtrip_witness :
    load_cached_devices (persist_device_cache exCache) = exCache
    ∧ List.lookup "aabbcc"
        (load_cached_devices ((persist_device_cache exCache).reverse))
      = List.lookup "aabbcc" exCache :=
  ⟨(claim_C5_cache_roundtrip exCache (by decide) (by decide)).1,
   (claim_C5_cache_roundtrip exCache (by decide) (by decide)).2.1
     (persist_device_cache exCache).reverse (List.reverse_perm _).symm "aabbcc"⟩

end Homebrain
